import Mathlib

/-!
Verification of the manifest-resolution and download-strategy logic of
`mpd2mp4` (`src/main.py`).

The program is an interactive script.  Its decision logic is embedded
shallowly:

* Python strings are modelled as `List Char` (with `String` for opaque
  filesystem paths that the logic never inspects character by character);
* `str.strip`, `str.lower`, `str.endswith` and substring tests (`in`) are
  modelled directly on `List Char`;
* the five `re.search` calls (`main.py:211` and `main.py:218-223`) are
  modelled by a deterministic matcher, `searchPat`.  Each of the five
  patterns has the shape
  `LITERAL  [^>]*>  https?://  [^X]+  SUFFIX` (with the middle `[^>]*>`
  part and the suffix present only in the element patterns).  For these
  patterns the greedy backtracking search of Python's `re` is
  deterministic: each character class excludes exactly the character that
  must follow it, so no backtracking branch can ever succeed, and
  `re.search`'s leftmost rule is the left-to-right scan of `searchPat`;
* filesystem facts (`os.path.isfile`, `os.path.abspath`, `os.path.dirname`,
  `os.path.basename`, `os.path.isabs`) are an abstract structure `FSModel`;
  the `file://` URI round trip (`pathlib.Path.as_uri` at `main.py:69` and
  the `replace('file://', ...)` decoding at `main.py:133/157`) is modelled
  as the identity on the absolute path, i.e. the `Local`/`Remote`
  distinction of the resolved reference is the `url.startswith('file://')`
  test of `main.py:146`;
* the outcome of the strategy-selection part of `main` is the inductive
  `RunOutcome`; effects (printing, the actual subprocess / yt-dlp calls)
  are outside the model, which stops at the decision of what to invoke.
-/

namespace Mpd2Mp4

/-- Python `str.strip()` whitespace, restricted to the ASCII whitespace
characters (`main.py` never feeds non-ASCII whitespace to `strip`). -/
def isPyWs (c : Char) : Bool :=
  c == ' ' || c == '\t' || c == '\n' || c == '\r' || c == '\x0b' || c == '\x0c'

/-- The single-quote character (written numerically to keep source plain). -/
def sq : Char := '\x27'

/-- Drop trailing characters satisfying `p` (the right half of Python's
`str.strip(chars)`). -/
def dropTrailing (p : Char → Bool) (l : List Char) : List Char :=
  ((l.reverse).dropWhile p).reverse

/-- Python `s.strip(chars)` for a character class `p`: remove all leading and
all trailing characters in the class, in one pass. -/
def pyStrip (p : Char → Bool) (l : List Char) : List Char :=
  dropTrailing p (l.dropWhile p)

/-- The input cleaning of `validate_and_prepare_url` (`main.py:59`):
`user_input.strip().strip('"').strip("'")` — whitespace first, then double
quotes, then single quotes, each a single strip pass. -/
def cleanInput (l : List Char) : List Char :=
  pyStrip (fun c => c == sq) (pyStrip (fun c => c == '"') (pyStrip isPyWs l))

/-- `cleanInput` on `String`. -/
def cleanInputStr (s : String) : String :=
  (cleanInput s.toList).asString

/-- Abstract filesystem facts used by `main.py` (`os.path` queries).  The
fields are uninterpreted; theorems that need OS guarantees (such as
`os.path.abspath` returning an absolute path) take them as hypotheses. -/
structure FSModel where
  isfile : String → Bool
  abspath : String → String
  isabs : String → Bool
  dirname : String → String
  basename : String → String

/-- The resolved reference: `main.py` encodes `loc` as a `file://` URI
string and `remote` as the cleaned input itself; the tag is the
`url.startswith('file://')` test of `main.py:146`. -/
inductive ManifestReference where
  | loc : String → ManifestReference
  | remote : String → ManifestReference
deriving DecidableEq

/-- Result of `validate_and_prepare_url`: a `ValueError` (`main.py:56/62`)
or a reference. -/
inductive ResolveResult where
  | invalidInput : String → ResolveResult
  | ref : ManifestReference → ResolveResult
deriving DecidableEq

/-- `validate_and_prepare_url` (`main.py:50-74`).  `not user_input` is
emptiness (inputs are strings, so the `isinstance` test never fires);
`os.path.isfile` decides local vs remote; the local branch returns the
`file://` URI of `os.path.abspath(cleaned_input)`, modelled as
`loc (abspath cleaned)`. -/
def validate_and_prepare_url (fs : FSModel) (userInput : String) : ResolveResult :=
  if userInput.isEmpty then ResolveResult.invalidInput "Input cannot be empty"
  else if (cleanInputStr userInput).isEmpty then
    ResolveResult.invalidInput "Input cannot be empty after cleaning"
  else if fs.isfile (cleanInputStr userInput) then
    ResolveResult.ref (ManifestReference.loc (fs.abspath (cleanInputStr userInput)))
  else
    ResolveResult.ref (ManifestReference.remote (cleanInputStr userInput))

/-- Python `s in t` (substring test), on character lists. -/
def containsSub (pat : List Char) : List Char → Bool
  | [] => pat.isEmpty
  | c :: cs => pat.isPrefixOf (c :: cs) || containsSub pat cs

/-- `'http://' in mpd_content or 'https://' in mpd_content`
(`main.py:200`); note this test is case sensitive, unlike the regex
searches below. -/
def hasRemoteUrls (m : List Char) : Bool :=
  containsSub ("http://".toList) m || containsSub ("https://".toList) m

/-- Case-insensitive literal match (`re.IGNORECASE`): if `p` matches the
head of `s` up to ASCII case, return the rest of `s`. -/
def matchCI : List Char → List Char → Option (List Char)
  | [], s => some s
  | _ :: _, [] => none
  | p :: ps, c :: cs => if p.toLower == c.toLower then matchCI ps cs else none

/-- The `[^>]*>` part of the element patterns: skip to the first `>` and
consume it (the greedy `[^>]*` cannot cross a `>`, so this is exact). -/
def skipAttrGap : Bool → List Char → Option (List Char)
  | false, r => some r
  | true, r =>
    match r.dropWhile (fun c => !(c == '>')) with
    | c :: rest => if c == '>' then some rest else none
    | [] => none

/-- The `https?://` part: number of characters consumed (7 or 8), or
`none`.  The greedy `s?` needs no backtracking: if an `s` is consumed and
`://` does not follow, the alternative without `s` would need `:` where the
`s` stands, which also fails. -/
def matchScheme (t : List Char) : Option Nat :=
  match matchCI ("http".toList) t with
  | none => none
  | some r =>
    match r with
    | [] => none
    | c :: r' =>
      if c.toLower == 's' then
        match matchCI ("://".toList) r' with
        | some _ => some 8
        | none => none
      else
        match matchCI ("://".toList) (c :: r') with
        | some _ => some 7
        | none => none

/-- The `(https?://[^X]+)SUFFIX` part: capture the scheme plus the maximal
run of characters allowed by `bodyOk`, then require the (possibly empty)
case-insensitive suffix.  The suffix always starts with the one character
excluded by `bodyOk`, so the greedy `[^X]+` needs no backtracking. -/
def matchUrlBody (bodyOk : Char → Bool) (suf : List Char) (t2 : List Char) : Option (List Char) :=
  (matchScheme t2).bind (fun n =>
    if ((t2.drop n).takeWhile bodyOk).isEmpty then none
    else
      (matchCI suf (t2.drop (n + ((t2.drop n).takeWhile bodyOk).length))).bind
        (fun _ => some (t2.take (n + ((t2.drop n).takeWhile bodyOk).length))))

/-- One of the five URL-extraction regexes of `main.py:211/218-223`. -/
structure UrlPat where
  pre : List Char
  gap : Bool
  bodyOk : Char → Bool
  suf : List Char

/-- Match a pattern at the start of `t`, returning the captured group. -/
def matchAt (pat : UrlPat) (t : List Char) : Option (List Char) :=
  (matchCI pat.pre t).bind (fun r1 =>
    (skipAttrGap pat.gap r1).bind (fun t2 => matchUrlBody pat.bodyOk pat.suf t2))

/-- `re.search`: leftmost position at which the pattern matches. -/
def searchPat (pat : UrlPat) : List Char → Option (List Char)
  | [] => matchAt pat []
  | c :: cs =>
    match matchAt pat (c :: cs) with
    | some u => some u
    | none => searchPat pat cs

/-- `r'<BaseURL[^>]*>(https?://[^<]+)</BaseURL>'` (`main.py:211`). -/
def basePat : UrlPat :=
  { pre := "<BaseURL".toList, gap := true, bodyOk := fun c => !(c == '<'),
    suf := "</BaseURL>".toList }

/-- `r'media="(https?://[^"]+)"'` (`main.py:219`). -/
def mediaPat : UrlPat :=
  { pre := "media=\"".toList, gap := false, bodyOk := fun c => !(c == '"'),
    suf := "\"".toList }

/-- `r'initialization="(https?://[^"]+)"'` (`main.py:220`). -/
def initPat : UrlPat :=
  { pre := "initialization=\"".toList, gap := false, bodyOk := fun c => !(c == '"'),
    suf := "\"".toList }

/-- `r'sourceURL="(https?://[^"]+)"'` (`main.py:221`). -/
def sourcePat : UrlPat :=
  { pre := "sourceURL=\"".toList, gap := false, bodyOk := fun c => !(c == '"'),
    suf := "\"".toList }

/-- `r'<SegmentURL[^>]*>(https?://[^<]+)</SegmentURL>'` (`main.py:222`). -/
def segPat : UrlPat :=
  { pre := "<SegmentURL".toList, gap := true, bodyOk := fun c => !(c == '<'),
    suf := "</SegmentURL>".toList }

/-- The `media_patterns` list of `main.py:218-223`, in source order. -/
def mediaPatterns : List UrlPat := [mediaPat, initPat, sourcePat, segPat]

/-- The fallback loop of `main.py:226-234`: for each pattern, look at the
first match only; a match containing `w3.org` abandons that pattern and
moves on to the next one. -/
def extractMediaUrl : List UrlPat → List Char → Option (List Char)
  | [], _ => none
  | p :: ps, m =>
    match searchPat p m with
    | some u =>
      if containsSub ("w3.org".toList) (pyStrip isPyWs u) then extractMediaUrl ps m
      else some (pyStrip isPyWs u)
    | none => extractMediaUrl ps m

/-- The whole extraction step of `main.py:210-234`: `BaseURL` first
(its first match wins unconditionally, stripped of whitespace), then the
`media_patterns` loop. -/
def extractRemoteUrl (m : List Char) : Option (List Char) :=
  match searchPat basePat m with
  | some u => some (pyStrip isPyWs u)
  | none => extractMediaUrl mediaPatterns m

/-- The run-relevant facts about a local manifest that `main` discovers on
the way: the resolved ffmpeg path (`get_ffmpeg_path`, `main.py:80`),
whether `os.path.exists` holds for the manifest (`main.py:186`), and the
result of reading it as UTF-8 (`main.py:196-197`; `none` means the read or
decode raised). -/
structure LocalEnv where
  ffmpegPath : Option String
  mpdFileExists : Bool
  readResult : Option (List Char)

/-- What the local branch of `main` decides to do. -/
inductive RunOutcome where
  | ffmpegRequired : RunOutcome
  | mpdMissing : RunOutcome
  | delegate : List Char → RunOutcome
  | invokeMediaTool : String → String → String → RunOutcome
  | unresolvable : RunOutcome
deriving DecidableEq

/-- The local branch of `main` (`main.py:148-288`), up to the point where
an external tool is invoked or the run returns.  Note the read-failure
path: the `except` at `main.py:258-259` prints a warning and falls through
to the ffmpeg invocation at `main.py:261`. -/
def planLocal (env : LocalEnv) (mpdDir mpdFilename outputAbs : String) : RunOutcome :=
  match env.ffmpegPath with
  | none => RunOutcome.ffmpegRequired
  | some _ =>
    if env.mpdFileExists then
      match env.readResult with
      | none => RunOutcome.invokeMediaTool mpdFilename mpdDir outputAbs
      | some content =>
        if hasRemoteUrls content then
          match extractRemoteUrl content with
          | some u => RunOutcome.delegate u
          | none => RunOutcome.unresolvable
        else RunOutcome.invokeMediaTool mpdFilename mpdDir outputAbs
    else RunOutcome.mpdMissing

/-- The local branch including the path arithmetic of `main.py:163-167`:
`mpd_dir = dirname(abspath(local_path))`, `mpd_filename =
basename(local_path)`, `output_abs = abspath(output_name)`. -/
def localRun (fs : FSModel) (env : LocalEnv) (localPath outputName : String) : RunOutcome :=
  planLocal env (fs.dirname (fs.abspath localPath)) (fs.basename localPath)
    (fs.abspath outputName)

/-- The remote branch of `main` (`main.py:310-325`): always hand the URL to
the downloader; the ffmpeg path plays no role in the decision. -/
def planRemote (_ffmpegPath : Option String) (url : List Char) : RunOutcome :=
  RunOutcome.delegate url

/-- Python `s.lower()` (ASCII; no character relevant to `.mp4` differs). -/
def pyLower (l : List Char) : List Char := l.map Char.toLower

/-- Python `s.endswith(suf)`. -/
def endsWithL (suf l : List Char) : Bool := suf.isSuffixOf l

/-- The defaulting of `main.py:101-104`: strip the prompt answer; empty
becomes `output.mp4`. -/
def defaultedName (raw : List Char) : List Char :=
  if (pyStrip isPyWs raw).isEmpty then "output.mp4".toList else pyStrip isPyWs raw

/-- The suffix fix-up of `main.py:106-107`: append `.mp4` unless the
lower-cased name already ends in `.mp4`. -/
def normalizeOutputName (raw : List Char) : List Char :=
  if endsWithL (".mp4".toList) (pyLower (defaultedName raw)) then defaultedName raw
  else defaultedName raw ++ ".mp4".toList

/-! ### Helper lemmas: what a successful pattern search says about the text -/

theorem matchCI_rest (p : List Char) :
    ∀ s r, matchCI p s = some r → ∃ a, s = a ++ r := by
  induction p with
  | nil =>
    intro s r h
    refine ⟨[], ?_⟩
    simp only [matchCI] at h
    simp [Option.some.inj h]
  | cons x xs ih =>
    intro s r h
    cases s with
    | nil => simp [matchCI] at h
    | cons c cs =>
      simp only [matchCI] at h
      split at h
      · obtain ⟨a, ha⟩ := ih cs r h
        exact ⟨c :: a, by simp [ha]⟩
      · simp at h

theorem skipAttrGap_rest (g : Bool) (r t2 : List Char) (h : skipAttrGap g r = some t2) :
    ∃ a, r = a ++ t2 := by
  cases g with
  | false =>
    simp only [skipAttrGap, Option.some.injEq] at h
    exact ⟨[], by simp [h]⟩
  | true =>
    simp only [skipAttrGap] at h
    split at h
    · rename_i c rest hd
      split at h
      · obtain rfl : rest = t2 := Option.some.inj h
        refine ⟨r.takeWhile (fun c => !(c == '>')) ++ [c], ?_⟩
        have hr := List.takeWhile_append_dropWhile (fun c => !(c == '>')) r
        conv_lhs => rw [← hr, hd]
        simp
      · simp at h
    · simp at h

theorem matchUrlBody_take (bo : Char → Bool) (suf t2 u : List Char)
    (h : matchUrlBody bo suf t2 = some u) : ∃ b, t2 = u ++ b := by
  simp only [matchUrlBody, Option.bind_eq_some] at h
  obtain ⟨n, hs, h⟩ := h
  split at h
  · simp at h
  · rw [Option.bind_eq_some] at h
    obtain ⟨w, hm, hu⟩ := h
    refine ⟨t2.drop (n + ((t2.drop n).takeWhile bo).length), ?_⟩
    rw [← Option.some.inj hu]
    exact (List.take_append_drop _ _).symm

theorem matchAt_occurs (pat : UrlPat) (t u : List Char) (h : matchAt pat t = some u) :
    ∃ a b, t = a ++ (u ++ b) := by
  simp only [matchAt, Option.bind_eq_some] at h
  obtain ⟨r1, h1, t2, h2, h3⟩ := h
  obtain ⟨a1, ha1⟩ := matchCI_rest pat.pre t r1 h1
  obtain ⟨a2, ha2⟩ := skipAttrGap_rest pat.gap r1 t2 h2
  obtain ⟨b, hb⟩ := matchUrlBody_take pat.bodyOk pat.suf t2 u h3
  exact ⟨a1 ++ a2, b, by rw [ha1, ha2, hb]; simp⟩

theorem searchPat_occurs (pat : UrlPat) :
    ∀ t u, searchPat pat t = some u → ∃ a b, t = a ++ (u ++ b) := by
  intro t
  induction t with
  | nil =>
    intro u h
    exact matchAt_occurs pat [] u (by simpa [searchPat] using h)
  | cons c cs ih =>
    intro u h
    simp only [searchPat] at h
    cases hm : matchAt pat (c :: cs) with
    | some v =>
      rw [hm] at h
      exact Option.some.inj h ▸ matchAt_occurs pat (c :: cs) v hm
    | none =>
      rw [hm] at h
      obtain ⟨a, b, hab⟩ := ih u h
      exact ⟨c :: a, b, by simp [hab]⟩

theorem isPrefixOf_append_self (q r : List Char) : q.isPrefixOf (q ++ r) = true := by
  simp [List.isPrefixOf_iff_prefix]

theorem containsSub_append_self (q r : List Char) : containsSub q (q ++ r) = true := by
  cases q with
  | nil =>
    cases r with
    | nil => rfl
    | cons c cs => simp [containsSub]
  | cons x xs =>
    rw [List.cons_append]
    simp only [containsSub]
    rw [← List.cons_append, isPrefixOf_append_self]
    simp

theorem containsSub_append_of (q t : List Char) (h : containsSub q t = true) (a : List Char) :
    containsSub q (a ++ t) = true := by
  induction a with
  | nil => simpa using h
  | cons x xs ih => simp [containsSub, ih]

/-- A non-`w3.org` first match of every pattern never happens in `m`. -/
def firstMatchUnusable (p : UrlPat) (m : List Char) : Prop :=
  ∀ u, searchPat p m = some u → containsSub ("w3.org".toList) (pyStrip isPyWs u) = true

theorem extractMediaUrl_none (m : List Char) :
    ∀ ps : List UrlPat, (∀ p ∈ ps, firstMatchUnusable p m) → extractMediaUrl ps m = none := by
  intro ps
  induction ps with
  | nil => intro _; rfl
  | cons p ps ih =>
    intro h
    cases hs : searchPat p m with
    | none =>
      simp only [extractMediaUrl, hs]
      exact ih (fun q hq => h q (List.mem_cons_of_mem _ hq))
    | some u =>
      simp only [extractMediaUrl, hs]
      rw [if_pos (h p (List.mem_cons_self _ _) u hs)]
      exact ih (fun q hq => h q (List.mem_cons_of_mem _ hq))

/-! ### Claim theorems -/

/-- Concrete filesystem instance for witnesses: exactly one file `/f`,
`abspath` the identity, every path counted absolute. -/
def fsDemo : FSModel where
  isfile := fun s => s == "/f"
  abspath := fun s => s
  isabs := fun _ => true
  dirname := fun _ => "/dir"
  basename := fun s => s

/-- C2: a non-empty cleaned input naming an existing regular file resolves
to a `Local` reference carrying an absolute path of an existing file
(absoluteness and existence of `abspath` supplied as OS facts `habs` and
`hpres`); every other non-empty cleaned input resolves to a `Remote`
reference whose URL is exactly the cleaned string. -/
theorem c2_resolve_classification (fs : FSModel) (s : String)
    (habs : ∀ p, fs.isabs (fs.abspath p) = true)
    (hpres : ∀ p, fs.isfile p = true → fs.isfile (fs.abspath p) = true)
    (hne : cleanInputStr s ≠ "") :
    (fs.isfile (cleanInputStr s) = true →
        validate_and_prepare_url fs s =
          ResolveResult.ref (ManifestReference.loc (fs.abspath (cleanInputStr s))) ∧
        fs.isabs (fs.abspath (cleanInputStr s)) = true ∧
        fs.isfile (fs.abspath (cleanInputStr s)) = true) ∧
    (fs.isfile (cleanInputStr s) = false →
        validate_and_prepare_url fs s =
          ResolveResult.ref (ManifestReference.remote (cleanInputStr s))) := by
  have h0 : ¬ (s.isEmpty = true) := by
    intro hh
    rw [String.isEmpty_iff] at hh
    subst hh
    exact hne rfl
  have h1 : ¬ ((cleanInputStr s).isEmpty = true) := by
    intro hh
    exact hne ((String.isEmpty_iff _).mp hh)
  constructor
  · intro hf
    refine ⟨?_, habs _, hpres _ hf⟩
    unfold validate_and_prepare_url
    rw [if_neg h0, if_neg h1, if_pos hf]
  · intro hf
    unfold validate_and_prepare_url
    rw [if_neg h0, if_neg h1, if_neg (by simp [hf])]

/-- C2 witness: `/f` (an existing file in `fsDemo`) resolves `Local`;
`" http://x "` resolves `Remote` with the trimmed URL. -/
theorem c2_witness :
    validate_and_prepare_url fsDemo "/f" = ResolveResult.ref (ManifestReference.loc "/f") ∧
    validate_and_prepare_url fsDemo " http://x " =
      ResolveResult.ref (ManifestReference.remote "http://x") := by
  constructor
  · have h := ((c2_resolve_classification fsDemo "/f" (fun p => rfl) (fun p h => h)
      (by decide)).1 (by decide)).1
    exact h.trans (by decide)
  · have h := (c2_resolve_classification fsDemo " http://x " (fun p => rfl) (fun p h => h)
      (by decide)).2 (by decide)
    exact h.trans (by decide)

/-- C8: an input that is empty, or empty after the strip passes, is
rejected with a `ValueError` (`InvalidInputError`), never resolved. -/
theorem c8_empty_input_rejected (fs : FSModel) (s : String) (h : cleanInputStr s = "") :
    ∃ msg, validate_and_prepare_url fs s = ResolveResult.invalidInput msg := by
  unfold validate_and_prepare_url
  by_cases h0 : s.isEmpty = true
  · rw [if_pos h0]
    exact ⟨_, rfl⟩
  · rw [if_neg h0, if_pos (by rw [h]; decide)]
    exact ⟨_, rfl⟩

/-- C8 witness: the three inputs of the spec all fail. -/
theorem c8_witness :
    (∃ msg, validate_and_prepare_url fsDemo "" = ResolveResult.invalidInput msg) ∧
    (∃ msg, validate_and_prepare_url fsDemo "   " = ResolveResult.invalidInput msg) ∧
    (∃ msg, validate_and_prepare_url fsDemo "\"\"" = ResolveResult.invalidInput msg) :=
  ⟨c8_empty_input_rejected fsDemo "" (by decide),
   c8_empty_input_rejected fsDemo "   " (by decide),
   c8_empty_input_rejected fsDemo "\"\"" (by decide)⟩

/-- Single-quoted input with inner whitespace: `'  x  '`. -/
def c9ex1 : List Char := [sq, ' ', ' ', 'x', ' ', ' ', sq]

/-- Nested mixed quoting: single quotes, double quotes, single quotes. -/
def c9ex2 : List Char := [sq, '"', sq, 'x', sq, '"', sq]

/-- C9: the cleaning is one fixed-order pass (whitespace, then `"`,
then `'`), not a trim to fixed point: stripping `'  x  '` leaves the
whitespace padding in place, and in nested mixed quoting the inner quote
characters survive. -/
theorem c9_trim_single_fixed_order_pass :
    cleanInput c9ex1 = [' ', ' ', 'x', ' ', ' '] ∧
    isPyWs ' ' = true ∧
    cleanInput c9ex2 = ['"', sq, 'x', sq, '"'] ∧
    '"' ∈ cleanInput c9ex2 ∧ sq ∈ cleanInput c9ex2 := by
  decide

/-- C7: output-name normalization — whitespace-only input defaults to
`output.mp4`; a name whose lower-cased form does not end in `.mp4` gets
`.mp4` appended; a name already ending in `.mp4` (case-insensitively) is
returned unchanged. -/
theorem c7_output_filename_normalization (raw : List Char) :
    (pyStrip isPyWs raw = [] → normalizeOutputName raw = "output.mp4".toList) ∧
    (pyStrip isPyWs raw ≠ [] →
      (endsWithL (".mp4".toList) (pyLower (pyStrip isPyWs raw)) = true →
          normalizeOutputName raw = pyStrip isPyWs raw) ∧
      (endsWithL (".mp4".toList) (pyLower (pyStrip isPyWs raw)) = false →
          normalizeOutputName raw = pyStrip isPyWs raw ++ ".mp4".toList)) := by
  constructor
  · intro h
    simp only [normalizeOutputName, defaultedName, h]
    decide
  · intro hne
    have hfalse : (pyStrip isPyWs raw).isEmpty = false := by
      cases hl : pyStrip isPyWs raw with
      | nil => exact absurd hl hne
      | cons a l => rfl
    constructor
    · intro hend
      rw [show (".mp4".toList : List Char) = ['.', 'm', 'p', '4'] from rfl] at hend
      simp [normalizeOutputName, defaultedName, hfalse, hend]
    · intro hend
      rw [show (".mp4".toList : List Char) = ['.', 'm', 'p', '4'] from rfl] at hend
      simp [normalizeOutputName, defaultedName, hfalse, hend]

/-- C7 witness: the three spec examples. -/
theorem c7_witness :
    normalizeOutputName ("   ".toList) = "output.mp4".toList ∧
    normalizeOutputName ("clip.MP4".toList) = "clip.MP4".toList ∧
    normalizeOutputName ("video".toList) = "video.mp4".toList := by
  refine ⟨(c7_output_filename_normalization ("   ".toList)).1 (by decide), ?_, ?_⟩
  · have h := ((c7_output_filename_normalization ("clip.MP4".toList)).2 (by decide)).1 (by decide)
    exact h.trans (by decide)
  · have h := ((c7_output_filename_normalization ("video".toList)).2 (by decide)).2 (by decide)
    exact h.trans (by decide)

/-- C1 (amended): when reading/decoding the local manifest fails, the run
does NOT abort — the `except` at `main.py:258-259` prints a warning and
execution falls through to the ffmpeg subprocess at `main.py:261`,
skipping the remote-URL inspection entirely. -/
theorem c1_read_failure_proceeds_to_media_tool (f mpdDir mpdFilename outputAbs : String) :
    planLocal { ffmpegPath := some f, mpdFileExists := true, readResult := none }
      mpdDir mpdFilename outputAbs = RunOutcome.invokeMediaTool mpdFilename mpdDir outputAbs :=
  rfl

/-- C1 counterexample: a concrete local run whose manifest read fails
proceeds to invoke the media-processing subprocess, contradicting the
claim that the run aborts at the manifest-inspection step. -/
theorem c1_counterexample :
    planLocal { ffmpegPath := some "/usr/bin/ffmpeg", mpdFileExists := true, readResult := none }
      "/media/d" "v.mpd" "/media/out.mp4" =
      RunOutcome.invokeMediaTool "v.mpd" "/media/d" "/media/out.mp4" :=
  rfl

/-- C3: when the `BaseURL` regex finds a match whose captured value starts
with a literal `http://` or `https://`, the local plan delegates to the
downloader with exactly that (whitespace-stripped) value — the
`media_patterns` loop is never consulted, so `BaseURL` takes precedence
over any `media="…"` attribute in the same document. -/
theorem c3_baseurl_takes_precedence (c u : List Char) (f mpdDir mpdFilename outputAbs : String)
    (h : searchPat basePat c = some u)
    (hsch : (∃ v, u = "http://".toList ++ v) ∨ (∃ v, u = "https://".toList ++ v)) :
    planLocal { ffmpegPath := some f, mpdFileExists := true, readResult := some c }
      mpdDir mpdFilename outputAbs = RunOutcome.delegate (pyStrip isPyWs u) := by
  have hrem : hasRemoteUrls c = true := by
    obtain ⟨a, b, hab⟩ := searchPat_occurs basePat c u h
    rcases hsch with ⟨v, hv⟩ | ⟨v, hv⟩
    · have hc : containsSub ("http://".toList) c = true := by
        rw [hab, hv, List.append_assoc]
        exact containsSub_append_of _ _ (containsSub_append_self _ _) a
      simp only [hasRemoteUrls, Bool.or_eq_true]
      exact Or.inl hc
    · have hc : containsSub ("https://".toList) c = true := by
        rw [hab, hv, List.append_assoc]
        exact containsSub_append_of _ _ (containsSub_append_self _ _) a
      simp only [hasRemoteUrls, Bool.or_eq_true]
      exact Or.inr hc
  simp [planLocal, hrem, extractRemoteUrl, h]

/-- Manifest for the C3 witness: a `media` attribute appears first in the
text, yet the `BaseURL` value wins. -/
def c3ex : List Char :=
  "<MPD media=\"https://other.example/y\"><BaseURL>https://example.com/x</BaseURL></MPD>".toList

/-- C3 witness. -/
theorem c3_witness :
    planLocal { ffmpegPath := some "ffmpeg", mpdFileExists := true, readResult := some c3ex }
      "/d" "v.mpd" "/o.mp4" = RunOutcome.delegate ("https://example.com/x".toList) := by
  have h := c3_baseurl_takes_precedence c3ex ("https://example.com/x".toList)
    "ffmpeg" "/d" "v.mpd" "/o.mp4" (by decide)
    (Or.inr ⟨"example.com/x".toList, by decide⟩)
  exact h.trans (by decide)

/-- C4: a manifest containing an `http://`/`https://` substring from which
the `BaseURL` step finds nothing and every `media`-loop pattern's first
match is absent or a `w3.org` URL makes the local plan fail as
unresolvable: no download and no media-tool invocation happens. -/
theorem c4_unresolvable_manifest (c : List Char) (f mpdDir mpdFilename outputAbs : String)
    (hrem : hasRemoteUrls c = true)
    (hb : searchPat basePat c = none)
    (hm : ∀ p ∈ mediaPatterns, firstMatchUnusable p c) :
    planLocal { ffmpegPath := some f, mpdFileExists := true, readResult := some c }
      mpdDir mpdFilename outputAbs = RunOutcome.unresolvable := by
  have hx : extractMediaUrl mediaPatterns c = none := extractMediaUrl_none c mediaPatterns hm
  simp [planLocal, hrem, extractRemoteUrl, hb, hx]

/-- Manifest for the C4 witness: the spec's example, a `w3.org` namespace
URL and nothing else. -/
def c4ex : List Char := "xmlns=\"http://www.w3.org/ns/example\"".toList

/-- C4 witness. -/
theorem c4_witness :
    planLocal { ffmpegPath := some "ffmpeg", mpdFileExists := true, readResult := some c4ex }
      "/d" "v.mpd" "/o.mp4" = RunOutcome.unresolvable := by
  refine c4_unresolvable_manifest c4ex "ffmpeg" "/d" "v.mpd" "/o.mp4" (by decide) (by decide) ?_
  intro p hp u hu
  have hnone : searchPat p c4ex = none := by
    simp only [mediaPatterns, List.mem_cons, List.not_mem_nil, or_false] at hp
    rcases hp with rfl | rfl | rfl | rfl <;> decide
  rw [hnone] at hu
  exact Option.noConfusion hu

/-- C5: a readable local manifest with neither `http://` nor `https://`
anywhere in its text always leads to the ffmpeg invocation, with the
manifest's directory (`dirname (abspath localPath)`) as working directory
and the absolute output path — no structural validity of the manifest is
consulted. -/
theorem c5_local_manifest_invokes_media_tool (fs : FSModel)
    (f localPath outputName : String) (content : List Char)
    (habs : ∀ p, fs.isabs (fs.abspath p) = true)
    (h : hasRemoteUrls content = false) :
    localRun fs { ffmpegPath := some f, mpdFileExists := true, readResult := some content }
        localPath outputName =
      RunOutcome.invokeMediaTool (fs.basename localPath) (fs.dirname (fs.abspath localPath))
        (fs.abspath outputName) ∧
    fs.isabs (fs.abspath outputName) = true := by
  refine ⟨?_, habs _⟩
  simp [localRun, planLocal, h]

/-- C5 witness: a structurally meaningless manifest with no scheme
substrings still yields the media-tool invocation. -/
theorem c5_witness :
    localRun fsDemo
        { ffmpegPath := some "ffmpeg", mpdFileExists := true,
          readResult := some ("<MPD><broken ".toList) } "v.mpd" "out" =
      RunOutcome.invokeMediaTool "v.mpd" "/dir" "out" ∧
    fsDemo.isabs "out" = true := by
  have h := c5_local_manifest_invokes_media_tool fsDemo "ffmpeg" "v.mpd" "out"
    ("<MPD><broken ".toList) (fun p => rfl) (by decide)
  exact h

/-- C6: with no resolvable ffmpeg binary, a local reference fails with the
ffmpeg-required error regardless of whether the manifest exists or what
its content is (so before any inspection), while a remote reference is
planned identically whatever the ffmpeg lookup returned. -/
theorem c6_ffmpeg_required_for_local_only :
    (∀ (ex : Bool) (rr : Option (List Char)) (mpdDir mpdFilename outputAbs : String),
        planLocal { ffmpegPath := none, mpdFileExists := ex, readResult := rr }
          mpdDir mpdFilename outputAbs = RunOutcome.ffmpegRequired) ∧
    (∀ (fp : Option String) (url : List Char), planRemote fp url = RunOutcome.delegate url) :=
  ⟨fun _ _ _ _ _ => rfl, fun _ _ => rfl⟩

/-- C10: the `media_patterns` loop inspects only the first regex match of
each pattern: when the first `media="http(s)://…"` occurrence is a
`w3.org` URL the `media` pattern is abandoned entirely (the extraction
continues with the remaining three patterns), so a later valid `media`
occurrence is never extracted via the `media` pattern. -/
theorem c10_first_match_only (m u : List Char)
    (hb : searchPat basePat m = none)
    (h1 : searchPat mediaPat m = some u)
    (h2 : containsSub ("w3.org".toList) (pyStrip isPyWs u) = true) :
    extractRemoteUrl m = extractMediaUrl [initPat, sourcePat, segPat] m := by
  simp only [extractRemoteUrl, hb, mediaPatterns, extractMediaUrl, h1]
  rw [if_pos h2]

/-- Manifest for the C10 witness: the first `media` attribute is a
`w3.org` URL, the second a perfectly good CDN URL. -/
def c10ex : List Char :=
  "media=\"http://www.w3.org/a\" media=\"https://cdn.example.org/s1\"".toList

/-- C10 witness: although `c10ex` contains a valid second `media` URL,
the whole extraction comes up empty. -/
theorem c10_witness : extractRemoteUrl c10ex = none := by
  have h := c10_first_match_only c10ex ("http://www.w3.org/a".toList)
    (by decide) (by decide) (by decide)
  exact h.trans (by decide)

end Mpd2Mp4
